import Mathlib

/-!
Verification of the per-identifier fetch-and-extract pipeline of
`src/streamlit_app.py` (Myntra CSV processor).

The Python source is shallowly embedded over `List Char` strings and a
`JVal` type of Python/JSON values.  Machine floats do not occur in the
claims' scope; Python numbers (`int` and `float` are conflated) are
modelled as exact rationals, as the claims themselves stipulate
("under exact arithmetic").  Each definition mirrors the corresponding
source function; comments cite source line numbers.
-/

namespace Myntra

set_option maxRecDepth 40000

/-- Characters of a Python `str`, modelled as a list of characters. -/
abbrev Str := List Char

/-- Exact rational numbers representing Python numeric values (`int` and
`float` conflated, exact arithmetic as the claims stipulate).  Values are
kept in lowest terms with a positive denominator by the smart
constructor `pnMk`, so structural equality coincides with numeric
equality on all values the pipeline builds. -/
structure PyNum where
  n : Int
  d : Nat
deriving DecidableEq

/-- Normalizing constructor: reduce `n / d` to lowest terms. -/
def pnMk (n : Int) (d : Nat) : PyNum :=
  let g := Int.gcd n (Int.ofNat d)
  if g = 0 then ⟨0, 1⟩ else ⟨n / (Int.ofNat g), d / g⟩

instance (k : Nat) : OfNat PyNum k := ⟨⟨Int.ofNat k, 1⟩⟩

def pnNeg (a : PyNum) : PyNum := ⟨-a.n, a.d⟩

instance : Neg PyNum := ⟨pnNeg⟩

def pnAdd (a b : PyNum) : PyNum := pnMk (a.n * Int.ofNat b.d + b.n * Int.ofNat a.d) (a.d * b.d)

instance : Add PyNum := ⟨pnAdd⟩

def pnSub (a b : PyNum) : PyNum := pnAdd a (pnNeg b)

instance : Sub PyNum := ⟨pnSub⟩

def pnMul (a b : PyNum) : PyNum := pnMk (a.n * b.n) (a.d * b.d)

instance : Mul PyNum := ⟨pnMul⟩

/-- Reciprocal (junk value `0` at `0`; division by zero is guarded
wherever the source can raise `ZeroDivisionError`). -/
def pnInv (a : PyNum) : PyNum :=
  if 0 < a.n then ⟨Int.ofNat a.d, a.n.toNat⟩
  else if a.n < 0 then ⟨-(Int.ofNat a.d), (-a.n).toNat⟩
  else ⟨0, 1⟩

def pnDiv (a b : PyNum) : PyNum := pnMul a (pnInv b)

instance : Div PyNum := ⟨pnDiv⟩

/-- Comparison by cross-multiplication (denominators are positive). -/
def pnLt (a b : PyNum) : Prop := a.n * Int.ofNat b.d < b.n * Int.ofNat a.d

instance : LT PyNum := ⟨pnLt⟩

instance (a b : PyNum) : Decidable (pnLt a b) :=
  inferInstanceAs (Decidable (a.n * Int.ofNat b.d < b.n * Int.ofNat a.d))

instance (a b : PyNum) : Decidable (a < b) :=
  inferInstanceAs (Decidable (pnLt a b))

/-- Floor of a rational, as used by Python's `round`. -/
def pnFloor (a : PyNum) : Int := Int.fdiv a.n (Int.ofNat a.d)

/-- Python/JSON values as produced by `json.loads` and manipulated by the
pipeline: `None`, booleans, numbers (`int`/`float` as exact rationals),
strings, lists and dicts (association lists; the JSON parser keeps keys
unique, matching Python `dict`). -/
inductive JVal where
  | null : JVal
  | bool : Bool → JVal
  | num : PyNum → JVal
  | str : Str → JVal
  | arr : List JVal → JVal
  | obj : List (Str × JVal) → JVal

/-- Python truthiness (`bool(v)`) on the values above:
`None`, `False`, `0`, `""`, `[]` and `{}` are falsy. -/
def truthy : JVal → Bool
  | .null => false
  | .bool b => b
  | .num q => if q = 0 then false else true
  | .str s => !s.isEmpty
  | .arr xs => !xs.isEmpty
  | .obj f => !f.isEmpty

/-- Dict lookup (keys are unique, so first match is the binding). -/
def lookupJ : List (Str × JVal) → Str → Option JVal
  | [], _ => none
  | (k, v) :: rest, key => if k = key then some v else lookupJ rest key

/-- `d.get(key)`: `None` when the key is absent. -/
def pyGet (f : List (Str × JVal)) (k : Str) : JVal := (lookupJ f k).getD .null

/-- Python `a or b`: `a` when truthy, otherwise `b`. -/
def pyOr (a b : JVal) : JVal := if truthy a then a else b

/-- Insert into a dict under construction: an existing key keeps its
position and gets the new value (Python dict semantics; `json.loads`
keeps the last of duplicate keys this way). -/
def objInsert : List (Str × JVal) → Str → JVal → List (Str × JVal)
  | [], k, v => [(k, v)]
  | (k0, v0) :: rest, k, v =>
    if k0 = k then (k0, v) :: rest else (k0, v0) :: objInsert rest k v

/-! ## JSON parsing (`json.loads`)

A strict JSON parser over `Str`, with fuel for structural recursion.
Unmodelled corner cases of CPython's `json.loads` (documented
deviations, none reachable from the claims): the `NaN`/`Infinity`
extensions are rejected here, and `\uXXXX` escapes in the surrogate
range fail instead of producing surrogate code units. -/

/-- JSON inter-token whitespace. -/
def isJsonWs (c : Char) : Bool := c = ' ' || c = '\t' || c = '\n' || c = '\r'

def skipWs (s : Str) : Str := s.dropWhile isJsonWs

def isDigitC (c : Char) : Bool := 48 ≤ c.toNat && c.toNat ≤ 57

def digitVal (c : Char) : Nat := c.toNat - 48

/-- Value of one hexadecimal digit (`0-9`, `a-f`, `A-F`). -/
def hexVal (c : Char) : Option Nat :=
  if isDigitC c then some (digitVal c)
  else if 97 ≤ c.toNat && c.toNat ≤ 102 then some (c.toNat - 87)
  else if 65 ≤ c.toNat && c.toNat ≤ 70 then some (c.toNat - 55)
  else none

/-- Case-sensitive literal: drop `pat` from the front of `s`. -/
def dropLitCS : Str → Str → Option Str
  | [], s => some s
  | _ :: _, [] => none
  | p :: ps, c :: cs => if c = p then dropLitCS ps cs else none

def parseHex4 (s : Str) : Option (Nat × Str) :=
  match s with
  | a :: b :: c :: d :: rest =>
    match hexVal a, hexVal b, hexVal c, hexVal d with
    | some x, some y, some z, some w => some (((x * 16 + y) * 16 + z) * 16 + w, rest)
    | _, _, _, _ => none
  | _ => none

/-- Body of a JSON string after the opening quote; returns the decoded
characters and the remainder after the closing quote.  Strict mode:
raw control characters below U+0020 are rejected. -/
def parseStrBody : Nat → Str → Option (Str × Str)
  | 0, _ => none
  | fuel + 1, s =>
    match s with
    | [] => none
    | c :: rest =>
      if c = '"' then some ([], rest)
      else if c = '\\' then
        match rest with
        | [] => none
        | e :: rest2 =>
          let cont : Char → Str → Option (Str × Str) := fun ch r =>
            match parseStrBody fuel r with
            | some (tl, r2) => some (ch :: tl, r2)
            | none => none
          if e = '"' then cont '"' rest2
          else if e = '\\' then cont '\\' rest2
          else if e = '/' then cont '/' rest2
          else if e = 'b' then cont '\x08' rest2
          else if e = 'f' then cont '\x0c' rest2
          else if e = 'n' then cont '\n' rest2
          else if e = 'r' then cont '\r' rest2
          else if e = 't' then cont '\t' rest2
          else if e = 'u' then
            match parseHex4 rest2 with
            | some (n, r3) =>
              if 0xd800 ≤ n && n < 0xe000 then none
              else cont (Char.ofNat n) r3
            | none => none
          else none
      else if c.toNat < 0x20 then none
      else
        match parseStrBody fuel rest with
        | some (tl, r2) => some (c :: tl, r2)
        | none => none

def takeDigits (s : Str) : Str × Str := (s.takeWhile isDigitC, s.dropWhile isDigitC)

def digitsToNat (s : Str) : Nat := s.foldl (fun acc c => acc * 10 + digitVal c) 0

/-- JSON number: `-?(0|[1-9][0-9]*)(\.[0-9]+)?([eE][+-]?[0-9]+)?`,
evaluated exactly as a rational. -/
def parseNumber (s : Str) : Option (PyNum × Str) :=
  let signed : Bool × Str :=
    match s with
    | '-' :: r => (true, r)
    | _ => (false, s)
  let neg := signed.1
  let s1 := signed.2
  match s1 with
  | [] => none
  | c :: _ =>
    if !isDigitC c then none
    else
      let ip := (takeDigits s1).1
      let s2 := (takeDigits s1).2
      if 1 < ip.length && ip.headD ' ' = '0' then none
      else
        let fracRes : Option (Str × Str) :=
          match s2 with
          | '.' :: r =>
            let d := (takeDigits r).1
            if d.isEmpty then none else some (d, (takeDigits r).2)
          | _ => some ([], s2)
        match fracRes with
        | none => none
        | some (fd, s3) =>
          let expRes : Option (Bool × Str × Str) :=
            match s3 with
            | e :: r =>
              if e = 'e' || e = 'E' then
                let es : Bool × Str :=
                  match r with
                  | '+' :: rr => (false, rr)
                  | '-' :: rr => (true, rr)
                  | _ => (false, r)
                let ed := (takeDigits es.2).1
                if ed.isEmpty then none else some (es.1, ed, (takeDigits es.2).2)
              else some (false, [], s3)
            | [] => some (false, [], s3)
          match expRes with
          | none => none
          | some (eneg, ed, s4) =>
            let base : PyNum := pnAdd ⟨Int.ofNat (digitsToNat ip), 1⟩
              (pnMk (Int.ofNat (digitsToNat fd)) (10 ^ fd.length))
            let tenExp : PyNum := ⟨Int.ofNat (10 ^ digitsToNat ed), 1⟩
            let scaled : PyNum := if eneg then pnDiv base tenExp else pnMul base tenExp
            some (if neg then pnNeg scaled else scaled, s4)

mutual

/-- Parse one JSON value (leading whitespace allowed); returns the value
and the unconsumed remainder. -/
def parseVal : Nat → Str → Option (JVal × Str)
  | 0, _ => none
  | fuel + 1, s =>
    match skipWs s with
    | [] => none
    | c :: rest =>
      if c = '"' then
        match parseStrBody (fuel + 1) rest with
        | some (st, r) => some (.str st, r)
        | none => none
      else if c = '{' then
        match skipWs rest with
        | '}' :: r => some (.obj [], r)
        | _ => parseObjItems fuel rest []
      else if c = '[' then
        match skipWs rest with
        | ']' :: r => some (.arr [], r)
        | _ => parseArrItems fuel rest []
      else if c = 't' then
        match dropLitCS "rue".toList rest with
        | some r => some (.bool true, r)
        | none => none
      else if c = 'f' then
        match dropLitCS "alse".toList rest with
        | some r => some (.bool false, r)
        | none => none
      else if c = 'n' then
        match dropLitCS "ull".toList rest with
        | some r => some (.null, r)
        | none => none
      else if c = '-' || isDigitC c then
        match parseNumber (c :: rest) with
        | some (q, r) => some (.num q, r)
        | none => none
      else none

/-- Members of a JSON object after the opening brace (nonempty case). -/
def parseObjItems : Nat → Str → List (Str × JVal) → Option (JVal × Str)
  | 0, _, _ => none
  | fuel + 1, s, acc =>
    match skipWs s with
    | '"' :: rest =>
      match parseStrBody (fuel + 1) rest with
      | some (key, r1) =>
        match skipWs r1 with
        | ':' :: r2 =>
          match parseVal fuel r2 with
          | some (v, r3) =>
            match skipWs r3 with
            | ',' :: r4 => parseObjItems fuel r4 (objInsert acc key v)
            | '}' :: r4 => some (.obj (objInsert acc key v), r4)
            | _ => none
          | none => none
        | _ => none
      | none => none
    | _ => none

/-- Elements of a JSON array after the opening bracket (nonempty case). -/
def parseArrItems : Nat → Str → List JVal → Option (JVal × Str)
  | 0, _, _ => none
  | fuel + 1, s, acc =>
    match parseVal fuel s with
    | some (v, r1) =>
      match skipWs r1 with
      | ',' :: r2 => parseArrItems fuel r2 (acc ++ [v])
      | ']' :: r2 => some (.arr (acc ++ [v]), r2)
      | _ => none
    | none => none

end

/-- `json.loads`: parse a complete JSON document (one value plus
trailing whitespace). -/
def jsonParse (s : Str) : Option JVal :=
  match parseVal (2 * s.length + 8) s with
  | some (v, rest) => if skipWs rest = [] then some v else none
  | none => none

/-! ## Regular-expression scanners

Each fixed pattern of the source is implemented as a deterministic
scanner with the same match semantics (leftmost match, greedy character
classes, lazy `.*?` as shortest extension, non-overlapping `findall`).
Python's `\s` and `str.strip` are modelled over the ASCII whitespace
characters (the pages involved are ASCII-delimited markup). -/

/-- Python regex `\s` (ASCII range). -/
def isPyWs (c : Char) : Bool :=
  c = ' ' || c = '\t' || c = '\n' || c = '\r' || c = '\x0b' || c = '\x0c'

def lowerC (c : Char) : Char :=
  if 'A' ≤ c && c ≤ 'Z' then Char.ofNat (c.toNat + 32) else c

/-- Case-insensitive literal (for patterns compiled with `re.I`). -/
def dropLitCI : Str → Str → Option Str
  | [], s => some s
  | _ :: _, [] => none
  | p :: ps, c :: cs => if lowerC c = lowerC p then dropLitCI ps cs else none

/-- `["\']`: one quote character (either kind). -/
def dropQuote : Str → Option Str
  | c :: rest => if c = '"' || c = '\'' then some rest else none
  | [] => none

/-- `\s+` then the rest: at least one whitespace character. -/
def skipWs1 (s : Str) : Option Str :=
  match s with
  | c :: rest => if isPyWs c then some (rest.dropWhile isPyWs) else none
  | [] => none

/-- Substring test (Python `in` on `str`). -/
def isSubstrAux : Nat → Str → Str → Bool
  | 0, _, _ => false
  | fuel + 1, pat, s =>
    match dropLitCS pat s with
    | some _ => true
    | none =>
      match s with
      | [] => false
      | _ :: rest => isSubstrAux fuel pat rest

def isSubstr (pat s : Str) : Bool := isSubstrAux (s.length + 1) pat s

/-- `str.startswith`. -/
def pyStartsWith (p s : Str) : Bool := (dropLitCS p s).isSome

/-- `str.strip()` over ASCII whitespace. -/
def pyStrip (s : Str) : Str := ((s.dropWhile isPyWs).reverse.dropWhile isPyWs).reverse

/-- The literal CDN host of line 172:
`re.findall(r'https://assets\.myntassets\.com/[^\"]+', html)`. -/
def assetsHost : Str := "https://assets.myntassets.com/".toList

/-- `findall` for the CDN pattern: at each position try the literal host
followed by a maximal nonempty run of non-`"` characters; on a match,
scanning resumes after the match. -/
def findAssetsAux : Nat → Str → List Str
  | 0, _ => []
  | _, [] => []
  | fuel + 1, c :: rest =>
    match dropLitCS assetsHost (c :: rest) with
    | some after =>
      if (after.takeWhile (fun ch => ch ≠ '"')).isEmpty then findAssetsAux fuel rest
      else (assetsHost ++ after.takeWhile (fun ch => ch ≠ '"')) ::
        findAssetsAux fuel (after.drop (after.takeWhile (fun ch => ch ≠ '"')).length)
    | none => findAssetsAux fuel rest

def findAssets (s : Str) : List Str := findAssetsAux s.length s

/-- `([^"\']+)["\']`: the greedy nonempty quote-free run, which must be
followed by a quote; returns the captured run. -/
def quotedGroup (s : Str) : Option Str :=
  if (s.takeWhile (fun ch => !(ch = '"' || ch = '\''))).isEmpty then none
  else
    match s.drop (s.takeWhile (fun ch => !(ch = '"' || ch = '\''))).length with
    | c :: _ =>
      if c = '"' || c = '\'' then some (s.takeWhile (fun ch => !(ch = '"' || ch = '\'')))
      else none
    | [] => none

/-- Match attempt at one position for line 177:
`<meta\s+property=["\']og:image["\']\s+content=["\']([^"\']+)["\']`
(compiled with `re.I`); returns the captured group. -/
def matchOgAt (s : Str) : Option Str :=
  match dropLitCI "<meta".toList s with
  | none => none
  | some s1 =>
    match skipWs1 s1 with
    | none => none
    | some s2 =>
      match dropLitCI "property=".toList s2 with
      | none => none
      | some s3 =>
        match dropQuote s3 with
        | none => none
        | some s4 =>
          match dropLitCI "og:image".toList s4 with
          | none => none
          | some s5 =>
            match dropQuote s5 with
            | none => none
            | some s6 =>
              match skipWs1 s6 with
              | none => none
              | some s7 =>
                match dropLitCI "content=".toList s7 with
                | none => none
                | some s8 =>
                  match dropQuote s8 with
                  | none => none
                  | some s9 => quotedGroup s9

/-- `re.search` for the `og:image` pattern: leftmost match wins. -/
def searchOgAux : Nat → Str → Option Str
  | 0, _ => none
  | _, [] => none
  | fuel + 1, c :: rest =>
    match matchOgAt (c :: rest) with
    | some g => some g
    | none => searchOgAux fuel rest

def searchOg (s : Str) : Option Str := searchOgAux s.length s

/-- One attempt to read `type=["\']application/ld\+json["\']`
(case-insensitively) at the current position. -/
def matchTypeLdAt (s : Str) : Option Str :=
  match dropLitCI "type=".toList s with
  | none => none
  | some s1 =>
    match dropQuote s1 with
    | none => none
    | some s2 =>
      match dropLitCI "application/ld+json".toList s2 with
      | none => none
      | some s3 => dropQuote s3

/-- Does a `<script` attribute run (the maximal `[^>]*` region) contain
`type=["\']application/ld\+json["\']` (case-insensitively)? -/
def hasTypeLdAux : Nat → Str → Bool
  | 0, _ => false
  | fuel + 1, s =>
    match matchTypeLdAt s with
    | some _ => true
    | none =>
      match s with
      | [] => false
      | _ :: rest => hasTypeLdAux fuel rest

def hasTypeLd (s : Str) : Bool := hasTypeLdAux (s.length + 1) s

/-- Lazy `([\s\S]*?)</script>` (case-insensitive): the shortest prefix up
to the first `</script>`; returns (group, remainder after the match). -/
def findCloseScriptAux : Nat → Str → Str → Option (Str × Str)
  | 0, _, _ => none
  | fuel + 1, acc, s =>
    match dropLitCI "</script>".toList s with
    | some after => some (acc.reverse, after)
    | none =>
      match s with
      | [] => none
      | c :: rest => findCloseScriptAux fuel (c :: acc) rest

/-- Match attempt at one position for line 133:
`<script[^>]*type=["\']application/ld\+json["\'][^>]*>([\s\S]*?)</script>`
(`re.I`).  The `[^>]*` parts together cover exactly the maximal run of
non-`>` characters after `<script`, with the `type=...` literal somewhere
inside it (the greedy/backtracking search over that run is equivalent to
the substring test). -/
def matchScriptAt (s : Str) : Option (Str × Str) :=
  match dropLitCI "<script".toList s with
  | none => none
  | some s1 =>
    match s1.drop (s1.takeWhile (fun ch => ch ≠ '>')).length with
    | '>' :: body =>
      if hasTypeLd (s1.takeWhile (fun ch => ch ≠ '>')) then
        findCloseScriptAux (body.length + 1) [] body
      else none
    | _ => none

/-- `findall` of the ld+json script pattern (group 1 of each match). -/
def findLdBlocksAux : Nat → Str → List Str
  | 0, _ => []
  | _, [] => []
  | fuel + 1, c :: rest =>
    match matchScriptAt (c :: rest) with
    | some (g, after) => g :: findLdBlocksAux fuel after
    | none => findLdBlocksAux fuel rest

def findLdBlocks (s : Str) : List Str := findLdBlocksAux s.length s

/-- Positions (0-based, within the attribute run) where `src=` occurs
case-insensitively. -/
def srcPositionsAux : Nat → Str → Nat → List Nat
  | 0, _, _ => []
  | _, [], _ => []
  | fuel + 1, c :: rest, i =>
    match dropLitCI "src=".toList (c :: rest) with
    | some _ => i :: srcPositionsAux fuel rest (i + 1)
    | none => srcPositionsAux fuel rest (i + 1)

/-- After `src=`: `["\']([^"\']+)["\'][^>]*>`; returns the captured group
and the remainder after the closing `>` of the whole match. -/
def imgValueAt (s : Str) : Option (Str × Str) :=
  match dropQuote s with
  | none => none
  | some s1 =>
    match quotedGroup s1 with
    | none => none
    | some g =>
      match dropQuote (s1.drop g.length) with
      | none => none
      | some s3 =>
        match s3.dropWhile (fun ch => ch ≠ '>') with
        | '>' :: after => some (g, after)
        | _ => none

/-- Try the `src=` occurrences in the given order (greedy `[^>]+`
backtracks from the longest prefix, i.e. the last occurrence first). -/
def imgTryPositions (s1 : Str) : List Nat → Option (Str × Str)
  | [] => none
  | p :: ps =>
    match imgValueAt (s1.drop (p + 4)) with
    | some r => some r
    | none => imgTryPositions s1 ps

/-- Match attempt at one position for line 190:
`<img[^>]+src=["\']([^"\']+)["\'][^>]*>` (`re.I`).  `[^>]+` requires at
least one character between `<img` and `src=`. -/
def matchImgAt (s : Str) : Option (Str × Str) :=
  match dropLitCI "<img".toList s with
  | none => none
  | some s1 =>
    imgTryPositions s1
      (((srcPositionsAux (s1.takeWhile (fun ch => ch ≠ '>')).length
        (s1.takeWhile (fun ch => ch ≠ '>')) 0).filter (fun p => 1 ≤ p)).reverse)

/-- `findall` of the `<img ... src=...>` pattern (captured `src` values). -/
def findImgSrcsAux : Nat → Str → List Str
  | 0, _ => []
  | _, [] => []
  | fuel + 1, c :: rest =>
    match matchImgAt (c :: rest) with
    | some (g, after) => g :: findImgSrcsAux fuel after
    | none => findImgSrcsAux fuel rest

def findImgSrcs (s : Str) : List Str := findImgSrcsAux s.length s

/-- Lazy part of `window\.__myx\s*=\s*({.*?});` (DOTALL): accumulate
characters after the opening brace until the remainder starts with
`};`; the group includes that closing brace. -/
def myxLazyAux : Nat → Str → Str → Option Str
  | 0, _, _ => none
  | fuel + 1, acc, s =>
    match s with
    | '}' :: ';' :: _ => some (acc.reverse ++ ['}'])
    | [] => none
    | c :: rest => myxLazyAux fuel (c :: acc) rest

/-- Match attempt at one position for line 90:
`window\.__myx\s*=\s*({.*?});` with `re.DOTALL`; returns group 1. -/
def matchMyxAt (s : Str) : Option Str :=
  match dropLitCS "window.__myx".toList s with
  | none => none
  | some s1 =>
    match s1.dropWhile isPyWs with
    | '=' :: s3 =>
      (match s3.dropWhile isPyWs with
       | '{' :: s5 =>
         (match myxLazyAux (s5.length + 1) [] s5 with
          | some g => some ('{' :: g)
          | none => none)
       | _ => none)
    | _ => none

/-- `re.search` for the `window.__myx` pattern. -/
def searchMyxAux : Nat → Str → Option Str
  | 0, _ => none
  | _, [] => none
  | fuel + 1, c :: rest =>
    match matchMyxAt (c :: rest) with
    | some g => some g
    | none => searchMyxAux fuel rest

def searchMyx (s : Str) : Option Str := searchMyxAux s.length s

/-! ## The pipeline helpers (lines 89-155 of the source) -/

/-- The balanced-brace scan of `extract_myx_json` (lines 94-101): append
characters, adjusting a depth counter on `{`/`}`, stopping right after
the depth returns to zero. -/
def braceScanAux : Str → Int → Str → Str
  | [], _, acc => acc.reverse
  | c :: rest, depth, acc =>
    let depth2 := depth + (if c = '{' then 1 else 0) - (if c = '}' then 1 else 0)
    if depth2 = 0 then (c :: acc).reverse else braceScanAux rest depth2 (c :: acc)

def braceScan (txt : Str) : Str := braceScanAux txt 0 []

/-- `extract_myx_json` (lines 89-105): regex search, balanced-brace
scan, strict JSON parse; `{}` on any failure. -/
def extract_myx_json (html : Str) : JVal :=
  match searchMyx html with
  | none => .obj []
  | some txt =>
    match jsonParse (braceScan txt) with
    | some v => v
    | none => .obj []

/-- `normalize_price` (lines 107-110): any dict unwraps to its `value`
entry (`None` when absent); every other value passes through. -/
def normalize_price : JVal → JVal
  | .obj f => (lookupJ f "value".toList).getD .null
  | v => v

/-- `sizes[0].price` arm of `get_price_data` (lines 125-128). -/
def gpdSizes (pf : List (Str × JVal)) : JVal :=
  match lookupJ pf "sizes".toList with
  | some (.arr (first :: _)) =>
    (match first with
     | .obj ff =>
       (match lookupJ ff "price".toList with
        | some p => p
        | none => .obj [])
     | _ => .obj [])
  | _ => .obj []

/-- `stylePrices` arm of `get_price_data` (lines 123-124). -/
def gpdStylePrices (pf : List (Str × JVal)) : JVal :=
  match lookupJ pf "stylePrices".toList with
  | some v => v
  | none => gpdSizes pf

/-- `style.price` arm of `get_price_data` (lines 121-122). -/
def gpdStyle (pf : List (Str × JVal)) : JVal :=
  match lookupJ pf "style".toList with
  | some (.obj sf) =>
    (match lookupJ sf "price".toList with
     | some p => p
     | none => gpdStylePrices pf)
  | some _ => gpdStylePrices pf
  | none => gpdStylePrices pf

/-- `product.price` arm of `get_price_data` (lines 119-120). -/
def gpdProduct (pf : List (Str × JVal)) : JVal :=
  match lookupJ pf "product".toList with
  | some (.obj prodf) =>
    (match lookupJ prodf "price".toList with
     | some p => p
     | none => gpdStyle pf)
  | some _ => gpdStyle pf
  | none => gpdStyle pf

/-- `get_price_data` (lines 112-129): locate a price record under
`pdpData` by the elif chain; `{}` when nothing matches. -/
def get_price_data (data : JVal) : JVal :=
  match data with
  | .obj f =>
    (match lookupJ f "pdpData".toList with
     | some (.obj pf) =>
       (match lookupJ pf "price".toList with
        | some p => p
        | none => gpdProduct pf)
     | _ => .obj [])
  | _ => .obj []

/-- Key scan of `try_ld_json_image` (lines 140-144 / 148-152):
`if key in j and j[key]`, unwrapping a list to its first element. -/
def ldPick (f : List (Str × JVal)) (key : Str) : Option JVal :=
  match lookupJ f key with
  | some v =>
    if truthy v then
      some (match v with
            | .arr (x :: _) => x
            | _ => v)
    else none
  | none => none

def ldFromDict (f : List (Str × JVal)) : Option JVal :=
  match ldPick f "image".toList with
  | some v => some v
  | none =>
    match ldPick f "thumbnailUrl".toList with
    | some v => some v
    | none => ldPick f "imageUrl".toList

def ldFromList : List JVal → Option JVal
  | [] => none
  | .obj f :: rest =>
    (match ldFromDict f with
     | some v => some v
     | none => ldFromList rest)
  | _ :: rest => ldFromList rest

/-- Per-block loop of `try_ld_json_image`: a block that fails to parse,
or parses to a shape without a truthy image key, is skipped. -/
def ldBlocksScan : List Str → JVal
  | [] => .null
  | b :: rest =>
    match jsonParse (pyStrip b) with
    | some (.obj f) =>
      (match ldFromDict f with
       | some v => v
       | none => ldBlocksScan rest)
    | some (.arr xs) =>
      (match ldFromList xs with
       | some v => v
       | none => ldBlocksScan rest)
    | _ => ldBlocksScan rest

/-- `try_ld_json_image` (lines 131-155); `.null` models Python `None`. -/
def try_ld_json_image (html : Str) : JVal := ldBlocksScan (findLdBlocks html)

/-! ## The success-path body processing (lines 170-218) -/

/-- Stage-4 scan of the `src` list (lines 192-199): one pass, breaking
at the first entry that is absolute and contains `assets`, or absolute
and longer than 80 characters. -/
def choose_img_candidate : List Str → Option Str
  | [] => none
  | src :: rest =>
    if pyStartsWith "http".toList src && isSubstr "assets".toList src then some src
    else if pyStartsWith "http".toList src && decide (80 < src.length) then some src
    else choose_img_candidate rest

/-- Stage 4 of the image chain (lines 188-200):
`candidate or (m_img[0] if m_img else None)`. -/
def stage4Img (html : Str) : Option Str :=
  match choose_img_candidate (findImgSrcs html) with
  | some c => some c
  | none => (findImgSrcs html).head?

def sentinelNoImage : JVal := .str "No image found".toList

/-- The image fallback chain (lines 171-203), with Python's `if not
image_url:` truthiness gates between stages; `.null` models the unset
`None`. -/
def resolve_image (html : Str) : JVal :=
  let i1 : JVal :=
    match (findAssets html).head? with
    | some a => .str a
    | none => .null
  let i2 : JVal :=
    if truthy i1 then i1 else
      match searchOg html with
      | some g => .str g
      | none => .null
  let i3 : JVal :=
    if truthy i2 then i2 else
      (let ld := try_ld_json_image html
       if truthy ld then ld else i2)
  let i4 : JVal :=
    if truthy i3 then i3 else
      match stage4Img html with
      | some c => .str c
      | none => .null
  if truthy i4 then i4 else sentinelNoImage

def naJ : JVal := .str "NA".toList

/-- `isinstance(v, (int, float))`: numeric view of a value (Python
`bool` is an `int` subclass, so `True`/`False` count as `1`/`0`). -/
def toNum : JVal → Option PyNum
  | .num q => some q
  | .bool b => some (if b then 1 else 0)
  | _ => none

/-- Python's builtin `round` on an exact value: nearest integer, ties
to even (banker's rounding). -/
def bankersRound (q : PyNum) : Int :=
  let f := pnFloor q
  let r := pnSub q ⟨f, 1⟩
  if pnLt r (pnMk 1 2) then f
  else if pnLt (pnMk 1 2) r then f + 1
  else if f % 2 = 0 then f else f + 1

def natToStr (n : Nat) : Str := Nat.toDigits 10 n

/-- Python `str` of an `int`. -/
def intToStr (i : Int) : Str :=
  if i < 0 then '-' :: natToStr i.natAbs else natToStr i.natAbs

/-- The synthesized label of line 216:
`f"({round((mrp - selling_price) / mrp * 100)}% OFF)"`. -/
def discountLabelStr (m s : PyNum) : Str :=
  '(' :: intToStr (bankersRound (pnMul (pnDiv (pnSub m s) m) 100)) ++ "% OFF)".toList

/-- `str(e)` for the `AttributeError` raised by `price_data.get(...)`
when the located record is a truthy non-dict (the numeric case says
`int`; a Python float would say `float`, a distinction `PyNum` folds
together). -/
def attrGetErrMsg : JVal → Str
  | .arr _ => "'list' object has no attribute 'get'".toList
  | .str _ => "'str' object has no attribute 'get'".toList
  | .num _ => "'int' object has no attribute 'get'".toList
  | .bool _ => "'bool' object has no attribute 'get'".toList
  | .null => "'NoneType' object has no attribute 'get'".toList
  | .obj _ => []

/-- Lines 210-216 on a dict record: `mrp`, `selling_price` and
`discount_label` as assigned inside `if price_data:`.  `mrp == 0` with
a smaller numeric selling price raises `ZeroDivisionError` at line 216,
surfacing as `Except.error` with `str(e)`. -/
def priceFieldsObj (f : List (Str × JVal)) : Except Str (JVal × JVal × JVal) :=
  let mrp := normalize_price (pyGet f "mrp".toList)
  let selling0 :=
    normalize_price (pyOr (pyGet f "discountedPrice".toList) (pyGet f "discounted".toList))
  let selling := if truthy selling0 then selling0 else mrp
  let label0 := pyOr (pyGet f "discountDisplayLabel".toList) (pyGet f "discountLabel".toList)
  if truthy label0 then .ok (selling, mrp, label0)
  else
    match toNum mrp, toNum selling with
    | some m, some s =>
      if pnLt s m then
        (if m = 0 then .error "division by zero".toList
         else .ok (selling, mrp, .str (discountLabelStr m s)))
      else .ok (selling, mrp, label0)
    | _, _ => .ok (selling, mrp, label0)

/-- Lines 207-218: the three price fields.  A falsy record leaves the
initial `"NA"` values; a truthy non-dict record raises
`AttributeError` at the first `.get` call (line 210). -/
def priceFields (price_data : JVal) : Except Str (JVal × JVal × JVal) :=
  if truthy price_data then
    match price_data with
    | .obj f => priceFieldsObj f
    | v => .error (attrGetErrMsg v)
  else .ok (naJ, naJ, naJ)

/-- The output tuple of the pipeline (line 218 / 221 / 224 / 227):
`(pid, image_url, selling_price, mrp, discount_label)`. -/
abbrev ProductResult := Str × JVal × JVal × JVal × JVal

/-- `x or "NA"` of line 218. -/
def orNA (v : JVal) : JVal := if truthy v then v else naJ

/-- Whole-body processing on a 200 response (lines 170-218): image
chain, embedded-data parse, price-record location, price fields, final
tuple; an exception in the price block propagates to the attempt's
`except` handler. -/
def processBody (pid : Str) (body : Str) : Except Str ProductResult :=
  let image_url := resolve_image body
  let price_data := get_price_data (extract_myx_json body)
  match priceFields price_data with
  | .ok (selling, mrp, label) => .ok (pid, image_url, orNA selling, orNA mrp, orNA label)
  | .error e => .error e

/-! ## The fetch loop and the batch (lines 157-227 and 257-267)

One `session.get` is modelled by an oracle `net : Nat → FetchOutcome`
giving attempt `i`'s outcome.  Sleeping and backoff do not affect the
returned value and are not modelled. -/

/-- Outcome of one `session.get` call: a response with status code and
body text, or a raised exception with message `str(e)`. -/
inductive FetchOutcome where
  | response : Nat → Str → FetchOutcome
  | exc : Str → FetchOutcome

/-- Line 221: `(pid, "No image found", f"HTTP {r.status_code}", "NA", "NA")`. -/
def httpTuple (pid : Str) (status : Nat) : ProductResult :=
  (pid, sentinelNoImage, .str ("HTTP ".toList ++ natToStr status), naJ, naJ)

/-- Line 224: `(pid, "No image found", f"Error: {e}", "NA", "NA")`. -/
def errorTuple (pid : Str) (msg : Str) : ProductResult :=
  (pid, sentinelNoImage, .str ("Error: ".toList ++ msg), naJ, naJ)

/-- Line 227: `(pid, "No image found", "Retries failed", "NA", "NA")`. -/
def retriesFailedTuple (pid : Str) : ProductResult :=
  (pid, sentinelNoImage, .str "Retries failed".toList, naJ, naJ)

/-- One iteration of the `for attempt in range(retries)` loop (lines
167-224): `some result` when the iteration returns (success tuple,
non-200 tuple, or the last-attempt `except` tuple), `none` when it
falls through to the backoff sleep and the next attempt.  `isLast` is
the Python guard `attempt == retries - 1`. -/
def attemptOutcome (net : Nat → FetchOutcome) (pid : Str) (attempt : Nat) (isLast : Bool) :
    Option ProductResult :=
  match net attempt with
  | .response status body =>
    if status = 200 then
      match processBody pid body with
      | .ok r => some r
      | .error e => if isLast then some (errorTuple pid e) else none
    else some (httpTuple pid status)
  | .exc m => if isLast then some (errorTuple pid m) else none

/-- The `for attempt in range(retries)` loop of lines 166-226, with
`remaining + 1` iterations left at attempt index `attempt` (so the
Python guard `attempt == retries - 1` is exactly `remaining == 0`).
Returns the early-returned result (`none` when the loop body never
returns, i.e. when `range(retries)` is empty) together with the number
of `session.get` calls performed. -/
def getLoop (net : Nat → FetchOutcome) (pid : Str) : Nat → Nat → Option ProductResult × Nat
  | _, 0 => (none, 0)
  | attempt, remaining + 1 =>
    match attemptOutcome net pid attempt (remaining == 0) with
    | some r => (some r, 1)
    | none =>
      let p := getLoop net pid (attempt + 1) remaining
      (p.1, p.2 + 1)

def getMyntraCore (net : Nat → FetchOutcome) (pid : Str) (retries : Nat) :
    Option ProductResult × Nat :=
  getLoop net pid 0 retries

/-- `get_myntra_data` (lines 157-227): the loop's early return, or the
trailing `(pid, "No image found", "Retries failed", "NA", "NA")` when
the loop finishes without returning.  A Python `retries <= 0` makes
`range(retries)` empty, i.e. `retries = 0` here. -/
def get_myntra_data (net : Nat → FetchOutcome) (pid : Str) (retries : Nat) : ProductResult :=
  match (getMyntraCore net pid retries).1 with
  | some r => r
  | none => retriesFailedTuple pid

/-- Number of `session.get` calls a fetch performs. -/
def attemptsUsed (net : Nat → FetchOutcome) (pid : Str) (retries : Nat) : Nat :=
  (getMyntraCore net pid retries).2

/-- The executor loop of lines 257-267: each identifier is submitted
once with the default `retries=2`; `as_completed` yields the same
multiset of results in completion order, modelled by quantifying over
permutations in the theorems. -/
def run_batch (net : Str → Nat → FetchOutcome) (ids : List Str) : List ProductResult :=
  ids.map (fun pid => get_myntra_data (net pid) pid 2)

/-! ## Notions used in the claims -/

/-- Net brace count of a string. -/
def netDepth (s : Str) : Int :=
  (s.map (fun c => (if c = '{' then (1 : Int) else 0) - (if c = '}' then 1 else 0))).sum

/-- A string is brace-balanced when the depth-counting scan consumes it
whole and the total depth is zero (equivalently: the depth first
returns to zero exactly at the last character). -/
def braceBalanced (s : Str) : Bool :=
  decide (braceScan s = s) && decide (netDepth s = 0)

/-- Stage-3 "success" as the source tests it: `if ld:` (line 184). -/
def ldTruthy (html : Str) : Bool := truthy (try_ld_json_image html)

/-- The single-pass stage-4 criterion: absolute URL with the `assets`
marker, or absolute URL longer than 80 characters. -/
def goodSrc (s : Str) : Bool :=
  pyStartsWith "http".toList s && (isSubstr "assets".toList s || decide (80 < s.length))

/-! ## Concrete inputs used by witnesses and counterexamples -/

def idsW : List Str := ["p1".toList, "p2".toList]

def netW : Str → Nat → FetchOutcome := fun _ _ => .response 404 []

def pidW : Str := "p".toList

def netHttpW : Nat → FetchOutcome := fun k =>
  if k = 0 then .exc "timed out".toList else .response 404 []

/-- A well-formed, brace-balanced embedded object whose string content
contains the two characters `};`, so the lazy regex group truncates. -/
def objCex : Str := "\x7b\"a\": \"\x7b\x7d;\", \"b\": 1\x7d".toList

def bodyCex : Str := "window.__myx = ".toList ++ objCex ++ ";".toList

def bodyNested : Str := "window.__myx = \x7b\"a\": \x7b\"b\": 2\x7d\x7d;".toList

def bodyOgW : Str := "<meta property=\"og:image\" content=\"http://x/a.png\">".toList

/-- An absolute URL longer than 80 characters without the `assets`
marker. -/
def urlLong : Str :=
  "http://img.example.com/xxxxxxxxxxxxxxxxxxxxxxxxxxxxxxxxxxxxxxxxxxxxxxxxxxxxxxxxxxxx.jpg".toList

/-- An absolute URL containing the `assets` marker. -/
def urlAssets : Str := "http://cdn.example.com/assets/p.jpg".toList

/-- A body whose `<img>` `src` list holds `urlLong` before `urlAssets`. -/
def bodyImgCex : Str :=
  "<img src=\"".toList ++ urlLong ++ "\"><img src=\"".toList ++ urlAssets ++ "\">".toList

/-- A price record with a present but zero `discountedPrice` and a
nonzero `discounted`. -/
def recDpZero : List (Str × JVal) :=
  [("mrp".toList, .num 500), ("discountedPrice".toList, .num 0),
   ("discounted".toList, .num 300)]

def recSpec1 : List (Str × JVal) :=
  [("mrp".toList, .num 1000), ("discountedPrice".toList, .num 800)]

def recSpec2 : List (Str × JVal) := [("mrp".toList, .num 1000)]

def recLabelW : List (Str × JVal) :=
  [("mrp".toList, .num 400), ("discountedPrice".toList, .num 300)]

def vObjCex : JVal := .obj [("a".toList, .num 1)]

def vObjW : JVal := .obj [("value".toList, .num 7)]

def recZeroW : List (Str × JVal) :=
  [("mrp".toList, .num 500), ("discountedPrice".toList, .num 0)]

/-! ## Helper lemmas -/

theorem choose_img_eq_find (l : List Str) : choose_img_candidate l = l.find? goodSrc := by
  induction l with
  | nil => rfl
  | cons s rest ih =>
    simp only [choose_img_candidate, List.find?, goodSrc, ih]
    cases hA : pyStartsWith "http".toList s <;>
      cases hB : isSubstr "assets".toList s <;>
        cases hC : decide (80 < s.length) <;>
          simp [hA, hB, hC]

theorem truthy_orNA (v : JVal) : truthy (orNA v) = true := by
  unfold orNA
  by_cases h : truthy v = true
  · rw [if_pos h]
    exact h
  · rw [if_neg h]
    rfl

theorem truthy_obj (f : List (Str × JVal)) (hf : f ≠ []) : truthy (JVal.obj f) = true := by
  cases f with
  | nil => exact absurd rfl hf
  | cons a l => rfl

theorem priceFields_obj_eq (f : List (Str × JVal)) (hf : f ≠ []) :
    priceFields (JVal.obj f) = priceFieldsObj f := by
  unfold priceFields
  rw [if_pos (truthy_obj f hf)]

theorem priceFieldsObj_components (f : List (Str × JVal)) (sv mv lv : JVal)
    (h : priceFieldsObj f = .ok (sv, mv, lv)) :
    mv = normalize_price (pyGet f "mrp".toList) ∧
    sv = (if truthy (normalize_price (pyOr (pyGet f "discountedPrice".toList)
            (pyGet f "discounted".toList))) = true
          then normalize_price (pyOr (pyGet f "discountedPrice".toList)
            (pyGet f "discounted".toList))
          else normalize_price (pyGet f "mrp".toList)) := by
  simp only [priceFieldsObj] at h
  split at h
  · simp only [Except.ok.injEq, Prod.mk.injEq] at h
    exact ⟨h.2.1.symm, h.1.symm⟩
  · split at h
    · split at h
      · split at h
        · exact absurd h (by simp)
        · simp only [Except.ok.injEq, Prod.mk.injEq] at h
          exact ⟨h.2.1.symm, h.1.symm⟩
      · simp only [Except.ok.injEq, Prod.mk.injEq] at h
        exact ⟨h.2.1.symm, h.1.symm⟩
    · simp only [Except.ok.injEq, Prod.mk.injEq] at h
      exact ⟨h.2.1.symm, h.1.symm⟩

theorem pyOr_null_null : pyOr JVal.null JVal.null = JVal.null := rfl

theorem priceFieldsObj_label_synth (f : List (Str × JVal))
    (h1 : lookupJ f "discountDisplayLabel".toList = none)
    (h2 : lookupJ f "discountLabel".toList = none)
    (sv mv lv : JVal) (h : priceFieldsObj f = .ok (sv, mv, lv))
    (m s : PyNum) (hm : toNum mv = some m) (hs : toNum sv = some s)
    (hlt : pnLt s m) :
    lv = JVal.str (discountLabelStr m s) := by
  simp only [priceFieldsObj, pyGet, h1, h2, Option.getD_none, pyOr_null_null] at h
  split at h
  · rename_i hcond
    exact absurd hcond (by decide)
  · split at h
    · rename_i m0 s0 hm0 hs0
      split at h
      · split at h
        · exact absurd h (by simp)
        · simp only [Except.ok.injEq, Prod.mk.injEq] at h
          obtain ⟨hsv, hmv, hlv⟩ := h
          rw [← hmv] at hm
          rw [← hsv] at hs
          rw [hm0] at hm
          rw [hs0] at hs
          obtain rfl : m0 = m := Option.some.inj hm
          obtain rfl : s0 = s := Option.some.inj hs
          exact hlv.symm
      · rename_i hnlt
        simp only [Except.ok.injEq, Prod.mk.injEq] at h
        obtain ⟨hsv, hmv, hlv⟩ := h
        rw [← hmv] at hm
        rw [← hsv] at hs
        rw [hm0] at hm
        rw [hs0] at hs
        obtain rfl : m0 = m := Option.some.inj hm
        obtain rfl : s0 = s := Option.some.inj hs
        exact absurd hlt hnlt
    · rename_i hno
      simp only [Except.ok.injEq, Prod.mk.injEq] at h
      obtain ⟨hsv, hmv, hlv⟩ := h
      rw [← hmv] at hm
      rw [← hsv] at hs
      exact (hno m s hm hs).elim

theorem priceFieldsObj_label_na (f : List (Str × JVal))
    (h1 : lookupJ f "discountDisplayLabel".toList = none)
    (h2 : lookupJ f "discountLabel".toList = none)
    (sv mv lv : JVal) (h : priceFieldsObj f = .ok (sv, mv, lv))
    (hcase : toNum mv = none ∨ toNum sv = none ∨
      (∀ m s, toNum mv = some m → toNum sv = some s → ¬ pnLt s m)) :
    lv = JVal.null := by
  simp only [priceFieldsObj, pyGet, h1, h2, Option.getD_none, pyOr_null_null] at h
  split at h
  · rename_i hcond
    exact absurd hcond (by decide)
  · split at h
    · rename_i m0 s0 hm0 hs0
      split at h
      · split at h
        · exact absurd h (by simp)
        · rename_i hlt hm0z
          simp only [Except.ok.injEq, Prod.mk.injEq] at h
          obtain ⟨hsv, hmv, hlv⟩ := h
          rcases hcase with hc | hc | hc
          · rw [← hmv, hm0] at hc
            exact Option.noConfusion hc
          · rw [← hsv, hs0] at hc
            exact Option.noConfusion hc
          · exact absurd hlt (hc m0 s0 (by rw [← hmv, hm0]) (by rw [← hsv, hs0]))
      · simp only [Except.ok.injEq, Prod.mk.injEq] at h
        exact h.2.2.symm
    · simp only [Except.ok.injEq, Prod.mk.injEq] at h
      exact h.2.2.symm

theorem processBody_fst (pid body : Str) (r : ProductResult)
    (h : processBody pid body = .ok r) : r.1 = pid := by
  cases hpf : priceFields (get_price_data (extract_myx_json body)) with
  | error e =>
    have hpe : processBody pid body = Except.error e := by
      simp only [processBody]
      rw [hpf]
    rw [h] at hpe
    exact Except.noConfusion hpe
  | ok trip =>
    obtain ⟨s, m, l⟩ := trip
    have hpe : processBody pid body =
        Except.ok (pid, resolve_image body, orNA s, orNA m, orNA l) := by
      simp only [processBody]
      rw [hpf]
    rw [h] at hpe
    rw [Except.ok.inj hpe]

theorem attemptOutcome_fst (net : Nat → FetchOutcome) (pid : Str) (attempt : Nat)
    (isLast : Bool) (r : ProductResult)
    (h : attemptOutcome net pid attempt isLast = some r) : r.1 = pid := by
  unfold attemptOutcome at h
  split at h
  · split at h
    · split at h
      · rename_i hp
        rw [← Option.some.inj h]
        exact processBody_fst pid _ _ hp
      · split at h
        · rw [← Option.some.inj h]
          rfl
        · exact Option.noConfusion h
    · rw [← Option.some.inj h]
      rfl
  · split at h
    · rw [← Option.some.inj h]
      rfl
    · exact Option.noConfusion h

theorem attemptOutcome_last_isSome (net : Nat → FetchOutcome) (pid : Str) (attempt : Nat) :
    (attemptOutcome net pid attempt true).isSome = true := by
  unfold attemptOutcome
  split
  · split
    · split
      · rfl
      · rfl
    · rfl
  · rfl

theorem attemptOutcome_http (net : Nat → FetchOutcome) (pid : Str) (attempt : Nat)
    (isLast : Bool) (status : Nat) (body : Str)
    (hnet : net attempt = .response status body) (hs : status ≠ 200) :
    attemptOutcome net pid attempt isLast = some (httpTuple pid status) := by
  simp only [attemptOutcome, hnet]
  rw [if_neg hs]

theorem attemptOutcome_exc_last (net : Nat → FetchOutcome) (pid : Str) (attempt : Nat)
    (m : Str) (hnet : net attempt = .exc m) :
    attemptOutcome net pid attempt true = some (errorTuple pid m) := by
  simp [attemptOutcome, hnet]

theorem attemptOutcome_exc_notlast (net : Nat → FetchOutcome) (pid : Str) (attempt : Nat)
    (m : Str) (hnet : net attempt = .exc m) :
    attemptOutcome net pid attempt false = none := by
  simp [attemptOutcome, hnet]

theorem getLoop_succ_some (net : Nat → FetchOutcome) (pid : Str) (attempt remaining : Nat)
    (r : ProductResult) (h : attemptOutcome net pid attempt (remaining == 0) = some r) :
    getLoop net pid attempt (remaining + 1) = (some r, 1) := by
  unfold getLoop
  rw [h]

theorem getLoop_succ_none (net : Nat → FetchOutcome) (pid : Str) (attempt remaining : Nat)
    (h : attemptOutcome net pid attempt (remaining == 0) = none) :
    getLoop net pid attempt (remaining + 1) =
      ((getLoop net pid (attempt + 1) remaining).1,
        (getLoop net pid (attempt + 1) remaining).2 + 1) := by
  conv_lhs => unfold getLoop
  rw [h]

theorem getLoop_fst (net : Nat → FetchOutcome) (pid : Str) :
    ∀ remaining attempt r, (getLoop net pid attempt remaining).1 = some r → r.1 = pid := by
  intro remaining
  induction remaining with
  | zero =>
    intro attempt r h
    exact Option.noConfusion h
  | succ n ih =>
    intro attempt r h
    cases hao : attemptOutcome net pid attempt (n == 0) with
    | some r0 =>
      rw [getLoop_succ_some net pid attempt n r0 hao] at h
      rw [← Option.some.inj h]
      exact attemptOutcome_fst net pid attempt (n == 0) r0 hao
    | none =>
      rw [getLoop_succ_none net pid attempt n hao] at h
      exact ih (attempt + 1) r h

theorem get_myntra_data_fst (net : Nat → FetchOutcome) (pid : Str) (retries : Nat) :
    (get_myntra_data net pid retries).1 = pid := by
  unfold get_myntra_data getMyntraCore
  cases hl : (getLoop net pid 0 retries).1 with
  | some r => exact getLoop_fst net pid retries 0 r hl
  | none => rfl

theorem getLoop_isSome (net : Nat → FetchOutcome) (pid : Str) :
    ∀ remaining attempt, 1 ≤ remaining →
      ((getLoop net pid attempt remaining).1).isSome = true := by
  intro remaining
  induction remaining with
  | zero =>
    intro attempt h
    exact absurd h (by omega)
  | succ n ih =>
    intro attempt _
    cases hao : attemptOutcome net pid attempt (n == 0) with
    | some r0 =>
      rw [getLoop_succ_some net pid attempt n r0 hao]
      rfl
    | none =>
      cases n with
      | zero =>
        have := attemptOutcome_last_isSome net pid attempt
        rw [show ((0 : Nat) == 0) = true from rfl] at hao
        rw [hao] at this
        exact Bool.noConfusion this
      | succ n2 =>
        rw [getLoop_succ_none net pid attempt (n2 + 1) hao]
        exact ih (attempt + 1) (by omega)

theorem getLoop_http (net : Nat → FetchOutcome) (pid : Str) (j : Nat) :
    ∀ remaining attempt status body, j < remaining →
      (∀ k, k < j → ∃ m, net (attempt + k) = .exc m) →
      net (attempt + j) = .response status body → status ≠ 200 →
      getLoop net pid attempt remaining = (some (httpTuple pid status), j + 1) := by
  induction j with
  | zero =>
    intro remaining attempt status body hlt hpre hj hs
    obtain ⟨n, rfl⟩ : ∃ n, remaining = n + 1 := ⟨remaining - 1, by omega⟩
    rw [Nat.add_zero] at hj
    exact getLoop_succ_some net pid attempt n _
      (attemptOutcome_http net pid attempt (n == 0) status body hj hs)
  | succ j ih =>
    intro remaining attempt status body hlt hpre hj hs
    obtain ⟨n, rfl⟩ : ∃ n, remaining = n + 1 := ⟨remaining - 1, by omega⟩
    obtain ⟨m, hm⟩ := hpre 0 (by omega)
    rw [Nat.add_zero] at hm
    have hn0 : (n == 0) = false := by
      have : n ≠ 0 := by omega
      simp [this]
    have hao : attemptOutcome net pid attempt (n == 0) = none := by
      rw [hn0]
      exact attemptOutcome_exc_notlast net pid attempt m hm
    rw [getLoop_succ_none net pid attempt n hao]
    have hrec := ih n (attempt + 1) status body (by omega)
      (fun k hk => by
        have := hpre (k + 1) (by omega)
        rwa [show attempt + (k + 1) = attempt + 1 + k by omega] at this)
      (by rwa [show attempt + 1 + j = attempt + (j + 1) by omega])
      hs
    rw [hrec]

theorem getLoop_alltransport (net : Nat → FetchOutcome) (pid : Str) :
    ∀ remaining attempt, 1 ≤ remaining →
      (∀ k, k < remaining → ∃ m, net (attempt + k) = .exc m) →
      ∀ mlast, net (attempt + (remaining - 1)) = .exc mlast →
        getLoop net pid attempt remaining = (some (errorTuple pid mlast), remaining) := by
  intro remaining
  induction remaining with
  | zero =>
    intro attempt h
    exact absurd h (by omega)
  | succ n ih =>
    intro attempt _ hall mlast hlast
    cases n with
    | zero =>
      rw [Nat.add_zero] at hlast
      exact getLoop_succ_some net pid attempt 0 _
        (attemptOutcome_exc_last net pid attempt mlast hlast)
    | succ n2 =>
      obtain ⟨m, hm⟩ := hall 0 (by omega)
      rw [Nat.add_zero] at hm
      have hao : attemptOutcome net pid attempt ((n2 + 1 : Nat) == 0) = none :=
        attemptOutcome_exc_notlast net pid attempt m hm
      rw [getLoop_succ_none net pid attempt (n2 + 1) hao]
      have hrec := ih (attempt + 1) (by omega)
        (fun k hk => by
          have := hall (k + 1) (by omega)
          rwa [show attempt + (k + 1) = attempt + 1 + k by omega] at this)
        mlast
        (by rwa [show attempt + 1 + (n2 + 1 - 1) = attempt + (n2 + 1 + 1 - 1) by omega])
      rw [hrec]

theorem truthy_str (s : Str) (hs : s ≠ []) : truthy (JVal.str s) = true := by
  cases s with
  | nil => exact absurd rfl hs
  | cons c rest => rfl

theorem truthy_null_eq : truthy JVal.null = false := rfl

theorem findAssetsAux_ne : ∀ fuel s a, a ∈ findAssetsAux fuel s → a ≠ [] := by
  intro fuel
  induction fuel with
  | zero =>
    intro s a h
    cases s with
    | nil => exact absurd h (List.not_mem_nil a)
    | cons c rest => exact absurd h (List.not_mem_nil a)
  | succ n ih =>
    intro s a h
    cases s with
    | nil =>
      rw [show findAssetsAux (n + 1) [] = [] from rfl] at h
      exact absurd h (List.not_mem_nil a)
    | cons c rest =>
      unfold findAssetsAux at h
      split at h
      · split at h
        · exact ih rest a h
        · rcases List.mem_cons.mp h with heq | hmem
          · subst heq
            intro hnil
            rcases List.append_eq_nil.mp hnil with ⟨h1, _⟩
            exact absurd h1 (by decide)
          · exact ih _ a hmem
      · exact ih rest a h

theorem quotedGroup_ne (s g : Str) (h : quotedGroup s = some g) : g ≠ [] := by
  unfold quotedGroup at h
  split at h
  · exact Option.noConfusion h
  · rename_i hemp
    split at h
    · split at h
      · rw [← Option.some.inj h]
        simpa using hemp
      · exact Option.noConfusion h
    · exact Option.noConfusion h

theorem matchOgAt_ne (s g : Str) (h : matchOgAt s = some g) : g ≠ [] := by
  unfold matchOgAt at h
  repeat' split at h
  all_goals
    first
    | exact Option.noConfusion h
    | exact quotedGroup_ne _ _ h

theorem searchOgAux_ne : ∀ fuel s g, searchOgAux fuel s = some g → g ≠ [] := by
  intro fuel
  induction fuel with
  | zero =>
    intro s g h
    cases s with
    | nil => exact Option.noConfusion h
    | cons c rest => exact Option.noConfusion h
  | succ n ih =>
    intro s g h
    cases s with
    | nil =>
      rw [show searchOgAux (n + 1) [] = none from rfl] at h
      exact Option.noConfusion h
    | cons c rest =>
      unfold searchOgAux at h
      split at h
      · rename_i g0 hg0
        rw [← Option.some.inj h]
        exact matchOgAt_ne _ _ hg0
      · exact ih rest g h

theorem searchOg_ne (s g : Str) (h : searchOg s = some g) : g ≠ [] :=
  searchOgAux_ne s.length s g h

theorem imgValueAt_ne (s g r : Str) (h : imgValueAt s = some (g, r)) : g ≠ [] := by
  unfold imgValueAt at h
  split at h
  · exact Option.noConfusion h
  · split at h
    · exact Option.noConfusion h
    · rename_i g0 hg0
      split at h
      · exact Option.noConfusion h
      · split at h
        · have hp := Prod.mk.inj (Option.some.inj h)
          rw [← hp.1]
          exact quotedGroup_ne _ _ hg0
        · exact Option.noConfusion h

theorem imgTryPositions_ne (s1 : Str) :
    ∀ ps g r, imgTryPositions s1 ps = some (g, r) → g ≠ [] := by
  intro ps
  induction ps with
  | nil =>
    intro g r h
    rw [show imgTryPositions s1 [] = none from rfl] at h
    exact Option.noConfusion h
  | cons p rest ih =>
    intro g r h
    unfold imgTryPositions at h
    split at h
    · rename_i pr hpr
      rw [Option.some.inj h] at hpr
      exact imgValueAt_ne _ _ _ hpr
    · exact ih g r h

theorem matchImgAt_ne (s g r : Str) (h : matchImgAt s = some (g, r)) : g ≠ [] := by
  unfold matchImgAt at h
  split at h
  · exact Option.noConfusion h
  · exact imgTryPositions_ne _ _ g r h

theorem findImgSrcsAux_ne : ∀ fuel s g, g ∈ findImgSrcsAux fuel s → g ≠ [] := by
  intro fuel
  induction fuel with
  | zero =>
    intro s g h
    cases s with
    | nil => exact absurd h (List.not_mem_nil g)
    | cons c rest => exact absurd h (List.not_mem_nil g)
  | succ n ih =>
    intro s g h
    cases s with
    | nil => exact absurd h (List.not_mem_nil g)
    | cons c rest =>
      unfold findImgSrcsAux at h
      split at h
      · rename_i pr hpr
        rcases List.mem_cons.mp h with heq | hmem
        · subst heq
          exact matchImgAt_ne _ _ _ hpr
        · exact ih _ g hmem
      · exact ih rest g h

theorem choose_img_mem : ∀ (l : List Str) c, choose_img_candidate l = some c → c ∈ l := by
  intro l
  induction l with
  | nil =>
    intro c h
    exact Option.noConfusion h
  | cons s rest ih =>
    intro c h
    unfold choose_img_candidate at h
    split at h
    · rw [← Option.some.inj h]
      exact List.mem_cons_self s rest
    · split at h
      · rw [← Option.some.inj h]
        exact List.mem_cons_self s rest
      · exact List.mem_cons_of_mem s (ih c h)

theorem stage4Img_mem (body c : Str) (h : stage4Img body = some c) :
    c ∈ findImgSrcs body := by
  unfold stage4Img at h
  split at h
  · rename_i c0 hc0
    rw [← Option.some.inj h]
    exact choose_img_mem _ c0 hc0
  · cases hl : findImgSrcs body with
    | nil =>
      rw [hl] at h
      exact Option.noConfusion h
    | cons x xs =>
      rw [hl] at h
      have hx : x = c := Option.some.inj h
      rw [← hx]
      exact List.mem_cons_self x xs

theorem truthy_ite_sentinel (v : JVal) :
    truthy (if truthy v = true then v else sentinelNoImage) = true := by
  by_cases h : truthy v = true
  · rw [if_pos h]
    exact h
  · rw [if_neg h]
    rfl

/-! ## Claims -/

/-- C8 (amended): `normalize_price` unwraps every mapping — one-key or
not, whatever its keys — to its `value` entry, giving `None` when that
key is absent; every non-mapping value passes through unchanged. -/
theorem normalize_price_characterization (v : JVal) :
    (∀ f, v = JVal.obj f → normalize_price v = (lookupJ f "value".toList).getD JVal.null) ∧
    ((∀ f, v ≠ JVal.obj f) → normalize_price v = v) := by
  constructor
  · rintro f rfl; rfl
  · intro h
    cases v
    case obj f => exact absurd rfl (h f)
    all_goals rfl

/-- C8 counterexample: the claim says a one-key mapping whose single key
is not `value` passes through unchanged, but `normalize_price`
on `\x7b"a": 1\x7d` returns `None`, not the mapping. -/
theorem normalize_price_counterexample :
    normalize_price vObjCex = JVal.null ∧ JVal.null ≠ vObjCex := by
  refine ⟨rfl, fun h => ?_⟩
  injection h

/-- C8 witness: `normalize_price` on the mapping `\x7b"value": 7\x7d`
unwraps to `7`. -/
theorem normalize_price_witness : normalize_price vObjW = JVal.num 7 :=
  ((normalize_price_characterization vObjW).1 _ rfl).trans rfl

/-- C5 (amended): the stage-4 scan is a single pass that takes the first
`src` satisfying either criterion — absolute with the `assets` marker,
or absolute and longer than 80 characters (the marker does not rank
above the length criterion across the whole list) — and otherwise falls
back to the first `<img>` URL of any kind. -/
theorem img_stage4_selection (body : Str) :
    stage4Img body =
      ((findImgSrcs body).find? goodSrc).or ((findImgSrcs body).head?) := by
  unfold stage4Img
  rw [choose_img_eq_find]
  cases (findImgSrcs body).find? goodSrc <;> rfl

/-- C5 counterexample: with an absolute 87-character URL (no `assets`
marker) listed before an absolute URL containing the marker, the claim
prefers the marker URL, but the code returns the earlier long URL. -/
theorem img_marker_not_preferred :
    findImgSrcs bodyImgCex = [urlLong, urlAssets] ∧
    pyStartsWith "http".toList urlAssets = true ∧
    isSubstr "assets".toList urlAssets = true ∧
    pyStartsWith "http".toList urlLong = true ∧
    isSubstr "assets".toList urlLong = false ∧
    80 < urlLong.length ∧
    resolve_image bodyImgCex = JVal.str urlLong ∧
    urlLong ≠ urlAssets := by
  refine ⟨rfl, rfl, rfl, rfl, rfl, by decide, rfl, by decide⟩

/-- C3 counterexample: `bodyCex` embeds the well-formed, brace-balanced
object `objCex` in a `window.__myx = ...;` assignment, yet
`extract_myx_json` returns the empty mapping, because the lazy regex
group stops at the `};` inside the string value `"\x7b\x7d;"`. -/
theorem extract_myx_truncation :
    bodyCex = "window.__myx = ".toList ++ objCex ++ ";".toList ∧
    braceBalanced objCex = true ∧
    jsonParse objCex =
      some (JVal.obj [("a".toList, JVal.str "\x7b\x7d;".toList), ("b".toList, JVal.num 1)]) ∧
    extract_myx_json bodyCex = JVal.obj [] ∧
    JVal.obj ([] : List (Str × JVal)) ≠
      JVal.obj [("a".toList, JVal.str "\x7b\x7d;".toList), ("b".toList, JVal.num 1)] := by
  refine ⟨rfl, by decide, rfl, rfl, fun h => ?_⟩
  injection h with h1
  injection h1

/-- C3 (amended): when the regex search locates the assignment and its
captured group is brace-balanced (so the depth scan returns it whole)
and strict-JSON-parses, `extract_myx_json` returns exactly that parsed
mapping; when the search fails, or the scanned candidate fails to
parse, it returns the empty mapping — and, being a total function, it
never raises.  (The counterexample forces the balancedness condition to
be about the captured group: a `};` inside a string value truncates the
capture even for a brace-balanced embedded object.) -/
theorem extract_myx_correct (body : Str) :
    (∀ g j, searchMyx body = some g → braceBalanced g = true → jsonParse g = some j →
      extract_myx_json body = j) ∧
    (searchMyx body = none → extract_myx_json body = JVal.obj []) ∧
    (∀ g, searchMyx body = some g → jsonParse (braceScan g) = none →
      extract_myx_json body = JVal.obj []) := by
  refine ⟨?_, ?_, ?_⟩
  · intro g j hs hb hp
    have hscan : braceScan g = g := by
      simp only [braceBalanced, Bool.and_eq_true, decide_eq_true_eq] at hb
      exact hb.1
    simp only [extract_myx_json, hs, hscan, hp]
  · intro hs
    simp only [extract_myx_json, hs]
  · intro g hs hp
    simp only [extract_myx_json, hs, hp]

/-- C3 witness: a nested but brace-balanced assignment round-trips. -/
theorem extract_myx_witness :
    extract_myx_json bodyNested =
      JVal.obj [("a".toList, JVal.obj [("b".toList, JVal.num 2)])] :=
  (extract_myx_correct bodyNested).1 _ _ rfl (by decide) rfl

/-- C6 (amended): for a located (truthy) price record, the selling
price is the normalized value of `discountedPrice`-if-truthy-else-
`discounted` whenever that normalized value is itself truthy, and
otherwise falls back to the (normalized) mrp; a present-but-falsy
`discountedPrice`, or a falsy normalized candidate, is skipped rather
than reported.  The spec's concrete instances hold:
`\x7bmrp: 1000, discountedPrice: 800\x7d` gives selling 800, mrp 1000
and label `(20% OFF)`, and `\x7bmrp: 1000\x7d` gives selling 1000 with
output label `NA`. -/
theorem selling_price_resolution (f : List (Str × JVal)) (hf : f ≠ []) :
    (∀ sv mv lv, priceFields (JVal.obj f) = .ok (sv, mv, lv) →
      mv = normalize_price (pyGet f "mrp".toList) ∧
      sv = (if truthy (normalize_price (pyOr (pyGet f "discountedPrice".toList)
              (pyGet f "discounted".toList))) = true
            then normalize_price (pyOr (pyGet f "discountedPrice".toList)
              (pyGet f "discounted".toList))
            else mv)) ∧
    priceFields (JVal.obj recSpec1) =
      .ok (.num 800, .num 1000, .str "(20% OFF)".toList) ∧
    priceFields (JVal.obj recSpec2) = .ok (.num 1000, .num 1000, JVal.null) ∧
    orNA JVal.null = naJ := by
  refine ⟨?_, rfl, rfl, rfl⟩
  intro sv mv lv h
  rw [priceFields_obj_eq f hf] at h
  have hc := priceFieldsObj_components f sv mv lv h
  refine ⟨hc.1, ?_⟩
  rw [hc.1]
  exact hc.2

/-- C6 counterexample: in the record
`\x7bmrp: 500, discountedPrice: 0, discounted: 300\x7d` the key
`discountedPrice` is present with value `0`, yet the selling price is
`300` — not the normalized `discountedPrice` (`0`) the claim
prescribes for every record where the key is present. -/
theorem discounted_zero_not_taken :
    lookupJ recDpZero "discountedPrice".toList = some (JVal.num 0) ∧
    priceFields (JVal.obj recDpZero) =
      .ok (.num 300, .num 500, .str "(40% OFF)".toList) ∧
    JVal.num 300 ≠ normalize_price (JVal.num 0) := by
  refine ⟨rfl, rfl, fun h => ?_⟩
  injection h with h1
  exact absurd h1 (by decide)

/-- C6 witness: the general selling-price rule applied to the record
`\x7bmrp: 1000, discountedPrice: 800\x7d`. -/
theorem selling_price_resolution_witness :
    JVal.num 800 =
      (if truthy (normalize_price (pyOr (pyGet recSpec1 "discountedPrice".toList)
            (pyGet recSpec1 "discounted".toList))) = true
       then normalize_price (pyOr (pyGet recSpec1 "discountedPrice".toList)
            (pyGet recSpec1 "discounted".toList))
       else JVal.num 1000) :=
  (((selling_price_resolution recSpec1 (List.cons_ne_nil _ _)).1 (JVal.num 800)
    (JVal.num 1000) (JVal.str "(20% OFF)".toList) rfl).2)

/-- C7: for every price record without `discountDisplayLabel` and
`discountLabel` keys: whenever the computed mrp and selling price are
both numeric (Python `bool` counts as numeric) with selling < mrp, the
label is exactly `(P% OFF)` where
P = round((mrp − selling) / mrp · 100) with banker's rounding under
exact arithmetic; in every other case the output label is `NA`. -/
theorem discount_label_synthesis (f : List (Str × JVal))
    (h1 : lookupJ f "discountDisplayLabel".toList = none)
    (h2 : lookupJ f "discountLabel".toList = none) :
    ∀ sv mv lv, priceFields (JVal.obj f) = .ok (sv, mv, lv) →
      (∀ m s, toNum mv = some m → toNum sv = some s → pnLt s m →
        lv = JVal.str ('(' :: intToStr (bankersRound (pnMul (pnDiv (pnSub m s) m) 100))
          ++ "% OFF)".toList)) ∧
      ((toNum mv = none ∨ toNum sv = none ∨
          (∀ m s, toNum mv = some m → toNum sv = some s → ¬ pnLt s m)) →
        orNA lv = naJ) := by
  intro sv mv lv h
  by_cases hf : f = []
  · subst hf
    have hok := h
    rw [show priceFields (JVal.obj []) = Except.ok (naJ, naJ, naJ) from rfl] at hok
    simp only [Except.ok.injEq, Prod.mk.injEq] at hok
    obtain ⟨hsv, hmv, hlv⟩ := hok
    constructor
    · intro m s hm hs hlt
      rw [← hmv] at hm
      exact Option.noConfusion hm
    · intro hcase
      rw [← hlv]
      rfl
  · rw [priceFields_obj_eq f hf] at h
    constructor
    · intro m s hm hs hlt
      exact priceFieldsObj_label_synth f h1 h2 sv mv lv h m s hm hs hlt
    · intro hcase
      rw [priceFieldsObj_label_na f h1 h2 sv mv lv h hcase]
      rfl

/-- C7 witness: the record `\x7bmrp: 400, discountedPrice: 300\x7d`
yields the synthesized label `(25% OFF)`. -/
theorem discount_label_witness :
    JVal.str "(25% OFF)".toList =
      JVal.str ('(' :: intToStr (bankersRound (pnMul (pnDiv (pnSub 400 300) 400) 100))
        ++ "% OFF)".toList) :=
  ((discount_label_synthesis recLabelW rfl rfl (JVal.num 300) (JVal.num 400)
    (JVal.str "(25% OFF)".toList) rfl).1 400 300 rfl rfl (by decide))

/-- C10: zero (or otherwise falsy) prices never reach the output: every
successful tuple has truthy selling-price and mrp fields, which in
particular are never the number `0`; and a present `discountedPrice`
of `0` is skipped by the falsy-`or` chain, dropping the selling price
to `discounted` (when its normalized value is truthy) and else to the
mrp.  Any falsy field value is replaced by the sentinel `NA`. -/
theorem zero_price_sentinel (pid body : Str) (f : List (Str × JVal)) :
    (∀ t, processBody pid body = .ok t →
      truthy t.2.2.1 = true ∧ truthy t.2.2.2.1 = true ∧
      t.2.2.1 ≠ JVal.num 0 ∧ t.2.2.2.1 ≠ JVal.num 0) ∧
    (∀ sv mv lv, lookupJ f "discountedPrice".toList = some (JVal.num 0) →
      priceFields (JVal.obj f) = .ok (sv, mv, lv) →
      sv = (if truthy (normalize_price (pyGet f "discounted".toList)) = true
            then normalize_price (pyGet f "discounted".toList)
            else normalize_price (pyGet f "mrp".toList))) ∧
    (∀ v, truthy v = false → orNA v = naJ) := by
  refine ⟨?_, ?_, ?_⟩
  · intro t h
    cases hpf : priceFields (get_price_data (extract_myx_json body)) with
    | error e =>
      have hpe : processBody pid body = Except.error e := by
        simp only [processBody]
        rw [hpf]
      rw [h] at hpe
      exact Except.noConfusion hpe
    | ok trip =>
      obtain ⟨s, m, l⟩ := trip
      have hpe : processBody pid body =
          Except.ok (pid, resolve_image body, orNA s, orNA m, orNA l) := by
        simp only [processBody]
        rw [hpf]
      rw [h] at hpe
      have ht : t = (pid, resolve_image body, orNA s, orNA m, orNA l) :=
        Except.ok.inj hpe
      subst ht
      refine ⟨truthy_orNA s, truthy_orNA m, ?_, ?_⟩
      · intro hz
        have h0 : truthy (JVal.num 0) = true := by
          rw [← hz]
          exact truthy_orNA s
        exact absurd h0 (by decide)
      · intro hz
        have h0 : truthy (JVal.num 0) = true := by
          rw [← hz]
          exact truthy_orNA m
        exact absurd h0 (by decide)
  · intro sv mv lv hdp h
    have hf : f ≠ [] := by
      intro hnil
      rw [hnil] at hdp
      exact Option.noConfusion hdp
    rw [priceFields_obj_eq f hf] at h
    have hc := (priceFieldsObj_components f sv mv lv h).2
    rw [hc]
    have hget : pyGet f "discountedPrice".toList = JVal.num 0 := by
      unfold pyGet
      rw [hdp]
      rfl
    rw [hget]
    have hor : pyOr (JVal.num 0) (pyGet f "discounted".toList) =
        pyGet f "discounted".toList := by
      unfold pyOr
      rw [if_neg (by decide)]
    rw [hor]
  · intro v hv
    unfold orNA
    rw [hv]
    rfl

/-- C10 witness: in `\x7bmrp: 500, discountedPrice: 0\x7d` the zero
`discountedPrice` is skipped and the selling price falls back
(here to the mrp, 500). -/
theorem zero_price_sentinel_witness :
    JVal.num 500 =
      (if truthy (normalize_price (pyGet recZeroW "discounted".toList)) = true
       then normalize_price (pyGet recZeroW "discounted".toList)
       else normalize_price (pyGet recZeroW "mrp".toList)) :=
  (zero_price_sentinel [] [] recZeroW).2.1 (JVal.num 500) (JVal.num 500) JVal.null rfl rfl

/-- C1: for every submitted identifier sequence and completion order,
the batch yields exactly as many ProductResults as identifiers; the
multiset of first fields is exactly the submitted multiset, and every
result is the full pipeline output for its own identifier — whatever
each fetch's outcome (success, non-200 status, or transport failure).
The pipeline is a total function of the network oracle, so no
exception escapes it. -/
theorem batch_one_result_per_id (net : Str → Nat → FetchOutcome) (ids : List Str)
    (out : List ProductResult) (h : out.Perm (run_batch net ids)) :
    out.length = ids.length ∧
    (out.map (fun r => r.1)).Perm ids ∧
    (∀ r ∈ out, r.1 ∈ ids ∧ r = get_myntra_data (net r.1) r.1 2) := by
  have hmap : (run_batch net ids).map (fun r => r.1) = ids := by
    simp [run_batch, List.map_map, Function.comp_def, get_myntra_data_fst]
  refine ⟨h.length_eq.trans (by simp [run_batch]), hmap ▸ h.map (fun r => r.1), ?_⟩
  intro r hr
  have hr2 : r ∈ run_batch net ids := h.subset hr
  unfold run_batch at hr2
  obtain ⟨pid, hpid, heq⟩ := List.mem_map.mp hr2
  have hfst : r.1 = pid := by
    rw [← heq]
    exact get_myntra_data_fst _ _ _
  constructor
  · rw [hfst]
    exact hpid
  · rw [hfst]
    exact heq.symm

/-- C1 witness: a two-identifier batch, both fetches answering 404,
taken in its own completion order. -/
theorem batch_one_result_per_id_witness :
    (run_batch netW idsW).length = idsW.length ∧
    ((run_batch netW idsW).map (fun r => r.1)).Perm idsW ∧
    (∀ r ∈ run_batch netW idsW, r.1 ∈ idsW ∧ r = get_myntra_data (netW r.1) r.1 2) :=
  batch_one_result_per_id netW idsW (run_batch netW idsW) (List.Perm.refl _)

/-- C2: with `retries ≥ 1`: if the attempts before `j` all raise
transport errors and attempt `j < retries` receives a non-200 status,
the fetch returns `(pid, "No image found", "HTTP <status>", "NA",
"NA")` right after that attempt — `j + 1` calls, no further attempts;
if every attempt raises a transport error, the fetch performs exactly
`retries` calls and returns the tuple whose selling-price slot is
`Error: <message>` for the last attempt's error. -/
theorem fetch_retry_classification (net : Nat → FetchOutcome) (pid : Str) (retries : Nat) :
    (∀ j status body, j < retries →
      (∀ k, k < j → ∃ m, net k = .exc m) →
      net j = .response status body → status ≠ 200 →
      get_myntra_data net pid retries = httpTuple pid status ∧
        attemptsUsed net pid retries = j + 1) ∧
    (1 ≤ retries →
      (∀ k, k < retries → ∃ m, net k = .exc m) →
      ∀ mlast, net (retries - 1) = .exc mlast →
        get_myntra_data net pid retries = errorTuple pid mlast ∧
          attemptsUsed net pid retries = retries) := by
  constructor
  · intro j status body hj hpre hresp hs
    have hl := getLoop_http net pid j retries 0 status body hj
      (fun k hk => by simpa using hpre k hk)
      (by simpa using hresp) hs
    constructor
    · unfold get_myntra_data getMyntraCore
      rw [hl]
    · unfold attemptsUsed getMyntraCore
      rw [hl]
  · intro h1 hall mlast hlast
    have hl := getLoop_alltransport net pid retries 0 h1
      (fun k hk => by simpa using hall k hk)
      mlast (by simpa using hlast)
    constructor
    · unfold get_myntra_data getMyntraCore
      rw [hl]
    · unfold attemptsUsed getMyntraCore
      rw [hl]

/-- C2 witness: one transport failure then a 404 ends the fetch right
after the second attempt with the HTTP tuple. -/
theorem fetch_retry_classification_witness :
    get_myntra_data netHttpW pidW 2 = httpTuple pidW 404 ∧
      attemptsUsed netHttpW pidW 2 = 2 :=
  (fetch_retry_classification netHttpW pidW 2).1 1 404 [] (by omega)
    (fun k hk => ⟨"timed out".toList, by
      have hk0 : k = 0 := by omega
      subst hk0
      rfl⟩)
    rfl (by omega)

/-- C9: whenever `retries ≥ 1` the attempt loop returns from one of its
in-loop branches (success, non-200, or last-attempt error), so the
trailing "Retries failed" expression after the loop is unreachable; it
is produced exactly when `retries = 0` (Python: zero or negative gives
an empty `range`), and then no HTTP attempt is made at all. -/
theorem retries_failed_unreachable (net : Nat → FetchOutcome) (pid : Str) (retries : Nat) :
    (1 ≤ retries → ((getMyntraCore net pid retries).1).isSome = true) ∧
    (retries = 0 → getMyntraCore net pid retries = (none, 0) ∧
      get_myntra_data net pid retries = retriesFailedTuple pid ∧
      attemptsUsed net pid retries = 0) := by
  constructor
  · intro h1
    exact getLoop_isSome net pid retries 0 h1
  · intro h0
    subst h0
    exact ⟨rfl, rfl, rfl⟩

/-- C9 witness: with a single retry the loop returns a result from
within the loop. -/
theorem retries_failed_unreachable_witness :
    ((getMyntraCore netHttpW pidW 1).1).isSome = true :=
  (retries_failed_unreachable netHttpW pidW 1).1 (by omega)

/-- C4: the image chain runs strictly top to bottom, first success
winning: any body with a CDN-host match yields the first CDN URL
(whatever else is present); with no CDN match, an `og:image` match is
returned over any ld+json or `<img>` candidate; when the first three
stages produce nothing truthy, the generic `<img>` stage decides; and
with no candidate at all the result is exactly the sentinel
"No image found".  The image field is never `None` and never an empty
string. -/
theorem image_fallback_order (body : Str) :
    (∀ a rest, findAssets body = a :: rest → resolve_image body = JVal.str a) ∧
    (findAssets body = [] → ∀ g, searchOg body = some g →
      resolve_image body = JVal.str g) ∧
    (findAssets body = [] → searchOg body = none → ldTruthy body = false →
      (∀ c, stage4Img body = some c → resolve_image body = JVal.str c) ∧
      (stage4Img body = none → resolve_image body = sentinelNoImage)) ∧
    (resolve_image body ≠ JVal.null ∧ resolve_image body ≠ JVal.str []) := by
  refine ⟨?_, ?_, ?_, ?_⟩
  · intro a rest h
    have ha : a ≠ [] :=
      findAssetsAux_ne body.length body a (by
        rw [show findAssetsAux body.length body = findAssets body from rfl, h]
        exact List.mem_cons_self a rest)
    unfold resolve_image
    rw [h]
    simp [truthy_str a ha]
  · intro h1 g hg
    have hgne : g ≠ [] := searchOg_ne body g hg
    unfold resolve_image
    rw [h1, hg]
    simp [truthy_str g hgne, truthy_null_eq]
  · intro h1 h2 h3
    unfold ldTruthy at h3
    constructor
    · intro c hc
      have hcne : c ≠ [] :=
        findImgSrcsAux_ne body.length body c
          (stage4Img_mem body c hc)
      unfold resolve_image
      rw [h1, h2, hc]
      simp [truthy_str c hcne, truthy_null_eq, h3]
    · intro hnone
      unfold resolve_image
      rw [h1, h2, hnone]
      simp [truthy_null_eq, h3]
  · have hres : truthy (resolve_image body) = true := by
      unfold resolve_image
      exact truthy_ite_sentinel _
    constructor
    · intro hnull
      rw [hnull] at hres
      exact Bool.noConfusion hres
    · intro hempty
      rw [hempty] at hres
      exact Bool.noConfusion hres

/-- C4 witness: a body with only an `og:image` tag resolves to its
content attribute. -/
theorem image_fallback_order_witness :
    resolve_image bodyOgW = JVal.str "http://x/a.png".toList :=
  (image_fallback_order bodyOgW).2.1 rfl "http://x/a.png".toList rfl

end Myntra
